import Mathlib

/-!
Verification of the godo todo service: a shallow embedding of the request
handlers, data-layer operations and middleware chain, with theorems about
owner isolation, optimistic concurrency, token activation, authentication,
middleware ordering, CORS preflight, batch deletion and field validation.

Go machine integers (int32/int64 ids and version counters) are modelled as
unbounded Int: none of the verified properties involves overflow.
-/

namespace Godo

/-- Modelled from the spec: the generic field-level validation accumulator
(the validator package is not among the sources, only its call sites).
Errors maps a field key to a message; adding an error for a key that is
already present leaves the accumulator unchanged. -/
structure Validator where
  errors : List (String × String)
deriving Repr, DecidableEq

namespace Validator

def new : Validator := ⟨[]⟩

def hasKey (v : Validator) (key : String) : Bool :=
  v.errors.any (fun p => p.1 == key)

def addError (v : Validator) (key message : String) : Validator :=
  if v.hasKey key then v else ⟨v.errors ++ [(key, message)]⟩

def check (v : Validator) (ok : Bool) (key message : String) : Validator :=
  if ok then v else v.addError key message

def valid (v : Validator) : Bool := v.errors.isEmpty

end Validator

/-- Modelled from the spec: validator.Unique (validator package not among the
sources) reports whether all values of the slice are distinct. -/
def uniqueStrings : List String → Bool
  | [] => true
  | x :: rest => !rest.contains x && uniqueStrings rest

/-- Modelled from the spec: validator.PermittedValue reports membership of a
value in a safelist. -/
def permittedValue (value : String) (safelist : List String) : Bool :=
  safelist.contains value

/-- Todo record (internal/data/parser.go Todo struct, plus the archived column
used by the handlers and the second migration). The created_at timestamp is
generated by the database and plays no role in any verified property, so it is
omitted. -/
structure Todo where
  id : Int
  userId : Int
  text : String
  contexts : List String
  projects : List String
  priority : String
  completed : Bool
  archived : Bool
  version : Int
deriving Repr, DecidableEq

/-- priorityIsValid (internal/data/parser.go): empty priority is valid, a
priority of byte length other than 1 is invalid, and a single byte must match
the regular expression for one capital letter A to Z. -/
def priorityIsValid (t : Todo) : Bool :=
  if t.priority.utf8ByteSize == 0 then true
  else if t.priority.utf8ByteSize != 1 then false
  else match t.priority.data with
    | [c] => decide ('A' ≤ c) && decide (c ≤ 'Z')
    | _ => false

/-- ValidateTodo (internal/data/parser.go lines 304-317), checks in source
order. Note that the projects-count check is recorded under the key
"contexts" in the source. Go len on a string is its byte length. -/
def ValidateTodo (v : Validator) (t : Todo) : Validator :=
  ((((((v.check (t.text != "") "text" "must be provided").check
    (decide (t.text.utf8ByteSize < 500)) "text" "must be less than 500 bytes").check
    (decide (t.contexts.length ≤ 5)) "contexts" "must be no more than 5 contexts").check
    (uniqueStrings t.contexts) "contexts" "must not contain duplicate values").check
    (decide (t.projects.length ≤ 5)) "contexts" "must be no more than 5 projects").check
    (uniqueStrings t.projects) "projects" "must not contain duplicate values").check
    (priorityIsValid t) "priority" "must be a capital letter (A to Z) or empty string"

/-- Errors surfaced by the data layer (internal/data). -/
inductive ModelError
  | recordNotFound
  | editConflict
deriving Repr, DecidableEq

/-- Modelled from the spec: the Error strings of the data-layer sentinel errors
(internal/data/errors.go is not among the sources); the batch-handler tests
expect exactly "not found" for a missing record. -/
def ModelError.message : ModelError → String
  | .recordNotFound => "not found"
  | .editConflict => "edit conflict"

/-- The todos table, one row per todo. -/
abbrev TodoDB := List Todo

/-- TodoModel.GetTodoIfOwned (internal/data/parser.go lines 181-217):
SELECT ... WHERE id = $1 AND user_id = $2, not-found when id is below 1 or no
row matches both the id and the owner. -/
def TodoModel.getTodoIfOwned (db : TodoDB) (id userID : Int) : Except ModelError Todo :=
  if id < 1 then .error .recordNotFound
  else
    match db.find? (fun t => t.id == id && t.userId == userID) with
    | some t => .ok t
    | none => .error .recordNotFound

/-- The SET list of the todos UPDATE statement applied to a stored row:
text, contexts, projects, priority, completed are taken from the submitted
todo, version is the stored version plus one; the remaining columns (id,
user_id, created_at, archived) are untouched. -/
def TodoModel.mergeRow (todo stored : Todo) : Todo :=
  { stored with
    text := todo.text
    contexts := todo.contexts
    projects := todo.projects
    priority := todo.priority
    completed := todo.completed
    version := stored.version + 1 }

/-- TodoModel.Update (internal/data/parser.go lines 226-259):
UPDATE todos SET text, contexts, projects, priority, completed,
version = version + 1 WHERE id = $6 AND version = $7 RETURNING version.
No matching row means an edit conflict; on success the new stored version is
returned. The archived column is not part of the SET list. -/
def TodoModel.update (db : TodoDB) (todo : Todo) : TodoDB × Except ModelError Int :=
  match db.find? (fun t => t.id == todo.id && t.version == todo.version) with
  | none => (db, .error .editConflict)
  | some stored =>
    (db.map (fun t =>
        if t.id == todo.id && t.version == todo.version
        then TodoModel.mergeRow todo stored else t),
      .ok (TodoModel.mergeRow todo stored).version)

/-- TodoModel.Delete (internal/data/parser.go lines 263-289):
DELETE FROM todos WHERE id = $1 — the statement matches on id only, with no
user_id condition; not-found when the id is below 1 or no rows were affected. -/
def TodoModel.delete (db : TodoDB) (id : Int) : TodoDB × Option ModelError :=
  if id < 1 then (db, some .recordNotFound)
  else
    let remaining := db.filter (fun t => !(t.id == id))
    if remaining.length == db.length then (db, some .recordNotFound)
    else (remaining, none)

/-- Accumulates the decimal value of a digit run; any non-digit character
fails the parse. -/
def parseDigitsAux : List Char → Nat → Option Nat
  | [], acc => some acc
  | c :: rest, acc =>
    if c.isDigit then parseDigitsAux rest (acc * 10 + (c.toNat - 48)) else none

/-- strconv.ParseInt base 10: an optional sign followed by one or more decimal
digits; anything else fails. -/
def parseIntString (s : String) : Option Int :=
  match s.data with
  | [] => none
  | '-' :: rest =>
    if rest.isEmpty then none else (parseDigitsAux rest 0).map (fun n => -(n : Int))
  | '+' :: rest =>
    if rest.isEmpty then none else (parseDigitsAux rest 0).map (fun n => (n : Int))
  | cs => (parseDigitsAux cs 0).map (fun n => (n : Int))

/-- readIdParam (helpers in unnamed/part_001): parses the :id path parameter
with strconv.ParseInt and rejects values below 1. -/
def readIdParam (s : String) : Option Int :=
  match parseIntString s with
  | some id => if id < 1 then none else some id
  | none => none

instance instDecEqExcept {ε α : Type} [DecidableEq ε] [DecidableEq α] :
    DecidableEq (Except ε α) := fun a b =>
  match a, b with
  | .ok x, .ok y =>
    if h : x = y then isTrue (by rw [h]) else isFalse (fun hc => by cases hc; exact h rfl)
  | .error x, .error y =>
    if h : x = y then isTrue (by rw [h]) else isFalse (fun hc => by cases hc; exact h rfl)
  | .ok _, .error _ => isFalse (fun hc => by cases hc)
  | .error _, .ok _ => isFalse (fun hc => by cases hc)

/-- Responses produced by the single-todo handlers. -/
inductive TodoResponse
  | ok (status : Nat) (todo : Option Todo)
  | notFound
  | conflict
  | invalid (errors : List (String × String))
  | serverError
deriving Repr, DecidableEq

/-- getTodo (cmd/api/todos_handlers.go lines 146-171): parse the id, fetch via
GetTodoIfOwned with the authenticated user id, 404 when absent or not owned. -/
def getTodo (db : TodoDB) (userID : Int) (idParam : String) : TodoResponse :=
  match readIdParam idParam with
  | none => .notFound
  | some id =>
    match TodoModel.getTodoIfOwned db id userID with
    | .error .recordNotFound => .notFound
    | .error _ => .serverError
    | .ok todo => .ok 200 (some todo)

/-- Partial update body of PATCH /v1/todos/:id; nil pointers (absent or null
fields) are None. -/
structure TodoPatch where
  text : Option String := none
  contexts : Option (List String) := none
  projects : Option (List String) := none
  priority : Option String := none
  completed : Option Bool := none
  archived : Option Bool := none
deriving Repr, DecidableEq

/-- updateTodo (cmd/api/todos_handlers.go lines 181-266): parse the id, fetch
via GetTodoIfOwned with the authenticated user id (404 when absent or not
owned), merge the non-nil body fields, revalidate, then TodoModel.Update with
the fetched version; an edit conflict surfaces as 409. The response body is
the merged in-memory record with the returned version. -/
def updateTodo (db : TodoDB) (userID : Int) (idParam : String) (input : TodoPatch) :
    TodoDB × TodoResponse :=
  match readIdParam idParam with
  | none => (db, .notFound)
  | some id =>
    match TodoModel.getTodoIfOwned db id userID with
    | .error .recordNotFound => (db, .notFound)
    | .error _ => (db, .serverError)
    | .ok fetched =>
      let todo : Todo :=
        { fetched with
          text := input.text.getD fetched.text
          contexts := input.contexts.getD fetched.contexts
          projects := input.projects.getD fetched.projects
          priority := input.priority.getD fetched.priority
          completed := input.completed.getD fetched.completed
          archived := input.archived.getD fetched.archived }
      let v := ValidateTodo Validator.new todo
      if !v.valid then (db, .invalid v.errors)
      else
        match TodoModel.update db todo with
        | (db', .ok newVersion) => (db', .ok 200 (some { todo with version := newVersion }))
        | (_, .error .editConflict) => (db, .conflict)
        | (_, .error _) => (db, .serverError)

/-- deleteTodo (cmd/api/todos_handlers.go lines 273-296): parse the id, then
call TodoModel.Delete directly. The handler never consults the authenticated
user: the user id parameter is unused, mirroring the source. -/
def deleteTodo (db : TodoDB) (_requestUserID : Int) (idParam : String) :
    TodoDB × TodoResponse :=
  match readIdParam idParam with
  | none => (db, .notFound)
  | some id =>
    match TodoModel.delete db id with
    | (db', none) => (db', .ok 200 none)
    | (_, some .recordNotFound) => (db, .notFound)
    | (_, some _) => (db, .serverError)

/-- Tracks the stored version of the first row with the given id. -/
def getVersion (db : TodoDB) (i : Int) : Option Int :=
  (db.find? (fun t => t.id == i)).map (fun t => t.version)

/-- All keys of the list are pairwise distinct under the key function (for the
todos and users tables this captures primary-key uniqueness of id). -/
def uniqueKeys {α : Type} (key : α → Int) : List α → Bool
  | [] => true
  | x :: rest => !(rest.any (fun r => key r == key x)) && uniqueKeys key rest

/-- Runs a sequence of TodoModel.Update calls in order; the Boolean records
whether every call succeeded. -/
def runUpdates : TodoDB → List Todo → TodoDB × Bool
  | db, [] => (db, true)
  | db, t :: ts =>
    match TodoModel.update db t with
    | (db1, .ok _) => runUpdates db1 ts
    | (db1, .error _) => ((runUpdates db1 ts).1, false)

theorem find?_of_mem_uniqueKeys {α : Type} (key : α → Int) (l : List α) (r : α) (i : Int)
    (huniq : uniqueKeys key l = true) (hr : r ∈ l) (hk : key r = i) :
    l.find? (fun x => key x == i) = some r := by
  induction l with
  | nil => cases hr
  | cons a rest ih =>
    simp only [uniqueKeys, Bool.and_eq_true, Bool.not_eq_true'] at huniq
    obtain ⟨hna, hu⟩ := huniq
    rcases List.mem_cons.mp hr with rfl | hmem
    · rw [List.find?_cons_of_pos]
      simp [hk]
    · have hne : ¬ ((key a == i) = true) := by
        simp only [beq_iff_eq]
        intro hai
        have hany : rest.any (fun x => key x == key a) = true :=
          List.any_eq_true.mpr ⟨r, hmem, by simp [hk, hai]⟩
        rw [hany] at hna
        cases hna
      rw [List.find?_cons_of_neg]
      · exact ih hu hmem
      · exact hne

theorem find?_map_key_preserving {α : Type} (key : α → Int) (g : α → α)
    (hg : ∀ x, key (g x) = key x) (l : List α) (i : Int) (r : α)
    (h : l.find? (fun x => key x == i) = some r) :
    (l.map g).find? (fun x => key x == i) = some (g r) := by
  induction l with
  | nil => cases h
  | cons a rest ih =>
    by_cases ha : ((key a == i) = true)
    · rw [List.find?_cons_of_pos] at h
      · injection h with h
        subst h
        simp only [List.map_cons]
        rw [List.find?_cons_of_pos]
        simp only [beq_iff_eq, hg]
        simpa using ha
      · exact ha
    · rw [List.find?_cons_of_neg] at h
      · simp only [List.map_cons]
        rw [List.find?_cons_of_neg]
        · exact ih h
        · simp only [beq_iff_eq, hg]
          simpa using ha
      · exact ha

theorem uniqueKeys_map {α : Type} (key : α → Int) (g : α → α)
    (hg : ∀ x, key (g x) = key x) (l : List α)
    (h : uniqueKeys key l = true) : uniqueKeys key (l.map g) = true := by
  induction l with
  | nil => rfl
  | cons a rest ih =>
    simp only [uniqueKeys, Bool.and_eq_true, Bool.not_eq_true'] at h
    obtain ⟨h1, h2⟩ := h
    simp only [List.map_cons, uniqueKeys, Bool.and_eq_true, Bool.not_eq_true']
    refine ⟨?_, ih h2⟩
    rw [List.any_map]
    have : (fun x => key x == key (g a)) ∘ g = fun x => key x == key a := by
      funext x
      simp [hg]
    rw [this]
    exact h1

theorem check_true (v : Validator) (k m : String) : v.check true k m = v := rfl

theorem hasKey_addError_ne (v : Validator) (k m k' : String)
    (h : (k == k') = false) : (v.addError k m).hasKey k' = v.hasKey k' := by
  unfold Validator.addError
  by_cases hk : v.hasKey k = true
  · simp [hk]
  · simp only [hk, Bool.false_eq_true, if_false]
    simp [Validator.hasKey, List.any_append, h]

theorem hasKey_check_ne (v : Validator) (ok : Bool) (k m k' : String)
    (h : (k == k') = false) : (v.check ok k m).hasKey k' = v.hasKey k' := by
  cases ok
  · exact hasKey_addError_ne v k m k' h
  · rfl

theorem mem_errors_check (v : Validator) (ok : Bool) (k m : String) (p : String × String)
    (h : p ∈ v.errors) : p ∈ (v.check ok k m).errors := by
  cases ok
  · unfold Validator.check Validator.addError
    by_cases hk : v.hasKey k = true
    · simpa [hk] using h
    · simp only [hk, Bool.false_eq_true, if_false]
      simp [List.mem_append, h]
  · exact h

theorem check_false_mem (v : Validator) (k m : String) (h : v.hasKey k = false) :
    (k, m) ∈ (v.check false k m).errors := by
  unfold Validator.check Validator.addError
  simp [h]

theorem update_ok_version (db db' : TodoDB) (t : Todo) (v' : Int)
    (huniq : uniqueKeys (fun r => r.id) db = true)
    (h : TodoModel.update db t = (db', .ok v')) :
    getVersion db t.id = some t.version ∧ getVersion db' t.id = some (t.version + 1)
      ∧ v' = t.version + 1 ∧ uniqueKeys (fun r => r.id) db' = true := by
  unfold TodoModel.update at h
  cases hf : db.find? (fun r => r.id == t.id && r.version == t.version) with
  | none =>
    rw [hf] at h
    simp at h
  | some stored =>
    rw [hf] at h
    simp only [Prod.mk.injEq] at h
    obtain ⟨hdb, hok⟩ := h
    have hv' : v' = (TodoModel.mergeRow t stored).version := by
      injection hok with h
      exact h.symm
    have hmem := List.mem_of_find?_eq_some hf
    have hpred := List.find?_some hf
    simp only [Bool.and_eq_true, beq_iff_eq] at hpred
    obtain ⟨hid, hver⟩ := hpred
    have hfind : db.find? (fun x => x.id == t.id) = some stored :=
      find?_of_mem_uniqueKeys (fun r => r.id) db stored t.id huniq hmem hid
    have g1 : getVersion db t.id = some t.version := by
      unfold getVersion
      rw [hfind]
      simp [hver]
    have hg : ∀ x : Todo,
        (if x.id == t.id && x.version == t.version then TodoModel.mergeRow t stored else x).id
          = x.id := by
      intro x
      by_cases hcnd : (x.id == t.id && x.version == t.version) = true
      · have hx : x.id = t.id := beq_iff_eq.mp ((Bool.and_eq_true _ _).mp hcnd).1
        have hx2 : x.version = t.version := beq_iff_eq.mp ((Bool.and_eq_true _ _).mp hcnd).2
        simp [hx, hx2, TodoModel.mergeRow, hid]
      · simp [hcnd]
    subst hdb
    have hfind' := find?_map_key_preserving (fun r => r.id) _ hg db t.id stored hfind
    have hGstored :
        (if stored.id == t.id && stored.version == t.version
          then TodoModel.mergeRow t stored else stored) = TodoModel.mergeRow t stored := by
      simp [hid, hver]
    have g2 : getVersion (db.map (fun x =>
        if x.id == t.id && x.version == t.version then TodoModel.mergeRow t stored else x)) t.id
        = some (t.version + 1) := by
      unfold getVersion
      rw [hfind', hGstored]
      simp [TodoModel.mergeRow, hver]
    refine ⟨g1, g2, ?_, uniqueKeys_map (fun r => r.id) _ hg db huniq⟩
    rw [hv']
    simp [TodoModel.mergeRow, hver]

theorem update_stale_conflict (db : TodoDB) (t : Todo) (v0 : Int)
    (huniq : uniqueKeys (fun r => r.id) db = true)
    (hv : getVersion db t.id = some v0) (hne : v0 ≠ t.version) :
    TodoModel.update db t = (db, .error .editConflict) := by
  have hnone : db.find? (fun r => r.id == t.id && r.version == t.version) = none := by
    rw [List.find?_eq_none]
    intro x hx
    simp only [Bool.and_eq_true, beq_iff_eq, not_and]
    intro hid hver
    have hfind := find?_of_mem_uniqueKeys (fun r => r.id) db x t.id huniq hx hid
    unfold getVersion at hv
    rw [hfind] at hv
    simp only [Option.map_some', Option.some.injEq] at hv
    exact hne (by rw [← hv, hver])
  unfold TodoModel.update
  rw [hnone]

theorem runUpdates_version (ts : List Todo) :
    ∀ (db : TodoDB) (i v0 : Int), uniqueKeys (fun r => r.id) db = true →
      (∀ t ∈ ts, t.id = i) → getVersion db i = some v0 →
      (runUpdates db ts).2 = true →
      getVersion (runUpdates db ts).1 i = some (v0 + ts.length) := by
  induction ts with
  | nil =>
    intro db i v0 _ _ hv _
    simpa using hv
  | cons t ts ih =>
    intro db i v0 huniq hids hv hsucc
    have hti : t.id = i := hids t (List.mem_cons_self t ts)
    rcases hu : TodoModel.update db t with ⟨db1, res⟩
    cases res with
    | error e =>
      exfalso
      have hfalse : (runUpdates db (t :: ts)).2 = false := by
        simp [runUpdates, hu]
      rw [hfalse] at hsucc
      cases hsucc
    | ok v' =>
      obtain ⟨hv0, hv1, _, huniq1⟩ := update_ok_version db db1 t v' huniq hu
      rw [hti] at hv0 hv1
      have htv : t.version = v0 := by
        rw [hv0] at hv
        injection hv
      have hrw : runUpdates db (t :: ts) = runUpdates db1 ts := by
        simp [runUpdates, hu]
      rw [hrw] at hsucc ⊢
      have hnext : getVersion db1 i = some (v0 + 1) := by
        rw [hv1, htv]
      have := ih db1 i (v0 + 1) huniq1 (fun x hx => hids x (List.mem_cons_of_mem _ hx)) hnext hsucc
      rw [this]
      congr 1
      simp only [List.length_cons]
      push_cast
      ring

def userAtodo : Todo :=
  { id := 1, userId := 1, text := "owned by user A", contexts := [], projects := [],
    priority := "", completed := false, archived := false, version := 1 }

/-- C1: read and update of another user's todo surface as not-found and leave
the record unchanged, but DELETE /v1/todos/:id is not owner-scoped: the
handler calls TodoModel.Delete, whose statement matches on id only, so user B
(id 2) deletes the todo owned by user A (id 1) and receives a success
response — contradicting the owner-isolation claim for delete. -/
theorem deleteTodo_not_owner_scoped :
    deleteTodo [userAtodo] 2 "1" = ([], .ok 200 none)
    ∧ getTodo [userAtodo] 2 "1" = .notFound
    ∧ updateTodo [userAtodo] 2 "1" { text := some "hijacked" } = ([userAtodo], .notFound) := by
  refine ⟨?_, ?_, ?_⟩ <;> decide

/-- C2: (1) a successful update requires the submitted version to equal the
stored version and leaves the stored version exactly one higher, returning it;
(2) an update submitted with a version different from the stored one is
rejected as an edit conflict and leaves the table, including the stored
version, unchanged; (3) after a sequence of N successful updates to one todo
the stored version equals the initial version plus N. -/
theorem todoUpdate_version_semantics :
    (∀ (db db' : TodoDB) (t : Todo) (v' : Int),
      uniqueKeys (fun r => r.id) db = true →
      TodoModel.update db t = (db', .ok v') →
      getVersion db t.id = some t.version ∧ getVersion db' t.id = some (t.version + 1)
        ∧ v' = t.version + 1 ∧ uniqueKeys (fun r => r.id) db' = true)
    ∧ (∀ (db : TodoDB) (t : Todo) (v0 : Int),
        uniqueKeys (fun r => r.id) db = true →
        getVersion db t.id = some v0 → v0 ≠ t.version →
        TodoModel.update db t = (db, .error .editConflict))
    ∧ (∀ (ts : List Todo) (db : TodoDB) (i v0 : Int),
        uniqueKeys (fun r => r.id) db = true →
        (∀ t ∈ ts, t.id = i) → getVersion db i = some v0 →
        (runUpdates db ts).2 = true →
        getVersion (runUpdates db ts).1 i = some (v0 + ts.length)) :=
  ⟨update_ok_version, update_stale_conflict,
    fun ts db i v0 h1 h2 h3 h4 => runUpdates_version ts db i v0 h1 h2 h3 h4⟩

def c2row : Todo :=
  { id := 1, userId := 1, text := "first", contexts := [], projects := [],
    priority := "", completed := false, archived := false, version := 1 }

def c2submit : Todo := { c2row with text := "second" }

def c2row2 : Todo := { c2row with text := "second", version := 2 }

def c2submit2 : Todo := { c2row with text := "third", version := 2 }

theorem todoUpdate_version_semantics_witness :
    (getVersion [c2row] c2submit.id = some c2submit.version
      ∧ getVersion [c2row2] c2submit.id = some (c2submit.version + 1)
      ∧ (2 : Int) = c2submit.version + 1
      ∧ uniqueKeys (fun r => r.id) [c2row2] = true)
    ∧ TodoModel.update [c2row] { c2submit with version := 7 } = ([c2row], .error .editConflict)
    ∧ getVersion (runUpdates [c2row] [c2submit, c2submit2]).1 1
        = some (1 + ([c2submit, c2submit2] : List Todo).length) :=
  ⟨todoUpdate_version_semantics.1 [c2row] [c2row2] c2submit 2 (by decide) (by decide),
   todoUpdate_version_semantics.2.1 [c2row] { c2submit with version := 7 } 1
     (by decide) (by decide) (by decide),
   todoUpdate_version_semantics.2.2 [c2submit, c2submit2] [c2row] 1 1
     (by decide) (by decide) (by decide) (by decide)⟩

/-- C10: in ValidateTodo, a todo with more than five (distinct) projects gets
its length error recorded under the key "contexts", and no error is recorded
under "projects"; duplicate projects, by contrast, are recorded under the key
"projects". -/
theorem validateTodo_projects_error_keys :
    (∀ t : Todo, t.contexts.length ≤ 5 → uniqueStrings t.contexts = true →
      5 < t.projects.length → uniqueStrings t.projects = true →
      ("contexts", "must be no more than 5 projects") ∈ (ValidateTodo Validator.new t).errors
        ∧ (ValidateTodo Validator.new t).hasKey "projects" = false)
    ∧ (∀ t : Todo, uniqueStrings t.projects = false →
        ("projects", "must not contain duplicate values") ∈ (ValidateTodo Validator.new t).errors) := by
  constructor
  · intro t hc hcu hp hpu
    have hc' : decide (t.contexts.length ≤ 5) = true := decide_eq_true hc
    have hp' : decide (t.projects.length ≤ 5) = false := decide_eq_false (by omega)
    unfold ValidateTodo
    rw [hc', hcu, hp', hpu, check_true, check_true, check_true]
    have h2 : ((Validator.new.check (t.text != "") "text" "must be provided").check
        (decide (t.text.utf8ByteSize < 500)) "text" "must be less than 500 bytes").hasKey
          "contexts" = false := by
      rw [hasKey_check_ne, hasKey_check_ne]
      · rfl
      · decide
      · decide
    refine ⟨mem_errors_check _ _ _ _ _ (check_false_mem _ _ _ h2), ?_⟩
    rw [hasKey_check_ne, hasKey_check_ne, hasKey_check_ne, hasKey_check_ne]
    · rfl
    · decide
    · decide
    · decide
    · decide
  · intro t hpu
    unfold ValidateTodo
    rw [hpu]
    apply mem_errors_check
    apply check_false_mem
    rw [hasKey_check_ne, hasKey_check_ne, hasKey_check_ne, hasKey_check_ne, hasKey_check_ne]
    · rfl
    · decide
    · decide
    · decide
    · decide
    · decide

def sixProjectsTodo : Todo :=
  { id := 1, userId := 1, text := "todo with too many projects", contexts := [],
    projects := ["a", "b", "c", "d", "e", "f"], priority := "", completed := false,
    archived := false, version := 1 }

def dupProjectsTodo : Todo := { sixProjectsTodo with projects := ["a", "a"] }

theorem validateTodo_projects_error_keys_witness :
    (("contexts", "must be no more than 5 projects")
        ∈ (ValidateTodo Validator.new sixProjectsTodo).errors
      ∧ (ValidateTodo Validator.new sixProjectsTodo).hasKey "projects" = false)
    ∧ ("projects", "must not contain duplicate values")
        ∈ (ValidateTodo Validator.new dupProjectsTodo).errors :=
  ⟨validateTodo_projects_error_keys.1 sixProjectsTodo (by decide) (by decide)
      (by decide) (by decide),
   validateTodo_projects_error_keys.2 dupProjectsTodo (by decide)⟩

/-- Modelled from the spec: parseID (the helper is not among the sources; its
callers and the batch-handler tests are). Parses an id string as a positive
integer with strconv.ParseInt semantics, failing with the message
"invalid ID" that the batch-handler tests expect. -/
def parseID (s : String) : Except String Int :=
  match parseIntString s with
  | some id => if id < 1 then .error "invalid ID" else .ok id
  | none => .error "invalid ID"

/-- Accumulator of the batch-delete loop: the table, the indices deleted
successfully, the per-index failure messages and the overall success flag. -/
structure BatchAcc where
  db : TodoDB
  processed : List Nat
  outcome : List (Nat × String)
  success : Bool
deriving Repr, DecidableEq

/-- The loop of deleteTodosBatch (cmd/api/batch_handlers.go lines 75-91),
processing the ids from index i onward: a parse failure or a delete failure
records the error message under the index and clears the success flag; a
successful delete records the index as processed. -/
def batchLoop (db : TodoDB) (ids : List String) (i : Nat) : BatchAcc :=
  match ids with
  | [] => { db := db, processed := [], outcome := [], success := true }
  | s :: rest =>
    match parseID s with
    | .error msg =>
      let r := batchLoop db rest (i + 1)
      { r with outcome := (i, msg) :: r.outcome, success := false }
    | .ok id =>
      match TodoModel.delete db id with
      | (db1, some e) =>
        let r := batchLoop db1 rest (i + 1)
        { r with outcome := (i, e.message) :: r.outcome, success := false }
      | (db1, none) =>
        let r := batchLoop db1 rest (i + 1)
        { r with processed := i :: r.processed }

inductive BatchResponse
  | badRequest (message : String)
  | result (status : Nat) (success : Bool) (processed : List Nat)
      (outcome : List (Nat × String))
deriving Repr, DecidableEq

/-- deleteTodosBatch (cmd/api/batch_handlers.go lines 55-99): an empty id list
is rejected with 400 "no IDs provided"; otherwise each id is parsed and
deleted independently and the response carries the per-index results, with
status 200 when every item succeeded and 400 otherwise. -/
def deleteTodosBatch (db : TodoDB) (ids : List String) : TodoDB × BatchResponse :=
  if ids.isEmpty then (db, .badRequest "no IDs provided")
  else
    let r := batchLoop db ids 0
    (r.db, .result (if r.success then 200 else 400) r.success r.processed r.outcome)

theorem parseID_error_msg (s : String) (m : String) (h : parseID s = .error m) :
    m = "invalid ID" := by
  unfold parseID at h
  split at h
  · split at h
    · injection h with h
      exact h.symm
    · cases h
  · injection h with h
    exact h.symm

theorem delete_error_elim (db : TodoDB) (id : Int) (db1 : TodoDB) (e : ModelError)
    (h : TodoModel.delete db id = (db1, some e)) : e = .recordNotFound ∧ db1 = db := by
  unfold TodoModel.delete at h
  by_cases h1 : id < 1
  · rw [if_pos h1] at h
    simp only [Prod.mk.injEq, Option.some.injEq] at h
    exact ⟨h.2.symm, h.1.symm⟩
  · rw [if_neg h1] at h
    by_cases h2 : ((db.filter (fun t => !(t.id == id))).length == db.length) = true
    · simp only [h2, if_true, Prod.mk.injEq, Option.some.injEq] at h
      exact ⟨h.2.symm, h.1.symm⟩
    · simp only [h2, Bool.false_eq_true, if_false, Prod.mk.injEq] at h
      cases h.2

theorem batchLoop_cons_parseError (db : TodoDB) (s : String) (rest : List String)
    (i : Nat) (msg : String) (h : parseID s = .error msg) :
    batchLoop db (s :: rest) i
      = { batchLoop db rest (i + 1) with
          outcome := (i, msg) :: (batchLoop db rest (i + 1)).outcome,
          success := false } := by
  simp [batchLoop, h]

theorem batchLoop_cons_deleteError (db : TodoDB) (s : String) (rest : List String)
    (i : Nat) (id : Int) (db1 : TodoDB) (e : ModelError)
    (hps : parseID s = .ok id) (hd : TodoModel.delete db id = (db1, some e)) :
    batchLoop db (s :: rest) i
      = { batchLoop db1 rest (i + 1) with
          outcome := (i, e.message) :: (batchLoop db1 rest (i + 1)).outcome,
          success := false } := by
  simp [batchLoop, hps, hd]

theorem batchLoop_cons_ok (db : TodoDB) (s : String) (rest : List String)
    (i : Nat) (id : Int) (db1 : TodoDB)
    (hps : parseID s = .ok id) (hd : TodoModel.delete db id = (db1, none)) :
    batchLoop db (s :: rest) i
      = { batchLoop db1 rest (i + 1) with
          processed := i :: (batchLoop db1 rest (i + 1)).processed } := by
  simp [batchLoop, hps, hd]

theorem batchLoop_mem_range (ids : List String) :
    ∀ (db : TodoDB) (i j : Nat),
      (j ∈ (batchLoop db ids i).processed → i ≤ j ∧ j < i + ids.length)
      ∧ (∀ m, (j, m) ∈ (batchLoop db ids i).outcome → i ≤ j ∧ j < i + ids.length) := by
  induction ids with
  | nil =>
    intro db i j
    constructor
    · intro h
      simp [batchLoop] at h
    · intro m h
      simp [batchLoop] at h
  | cons s rest ih =>
    intro db i j
    rcases hps : parseID s with msg | id
    · rw [batchLoop_cons_parseError db s rest i msg hps]
      constructor
      · intro h
        have := (ih db (i + 1) j).1 h
        simp only [List.length_cons]
        omega
      · intro m h
        simp only [List.length_cons]
        rcases List.mem_cons.mp h with heq | hmem
        · have hj : j = i := congrArg Prod.fst heq
          omega
        · have := (ih db (i + 1) j).2 m hmem
          omega
    · rcases hd : TodoModel.delete db id with ⟨db1, oe⟩
      cases oe with
      | some e =>
        rw [batchLoop_cons_deleteError db s rest i id db1 e hps hd]
        constructor
        · intro h
          have := (ih db1 (i + 1) j).1 h
          simp only [List.length_cons]
          omega
        · intro m h
          simp only [List.length_cons]
          rcases List.mem_cons.mp h with heq | hmem
          · have hj : j = i := congrArg Prod.fst heq
            omega
          · have := (ih db1 (i + 1) j).2 m hmem
            omega
      | none =>
        rw [batchLoop_cons_ok db s rest i id db1 hps hd]
        constructor
        · intro h
          simp only [List.length_cons]
          rcases List.mem_cons.mp h with heq | hmem
          · omega
          · have := (ih db1 (i + 1) j).1 hmem
            omega
        · intro m h
          have := (ih db1 (i + 1) j).2 m h
          simp only [List.length_cons]
          omega

theorem batchLoop_coverage (ids : List String) :
    ∀ (db : TodoDB) (i j : Nat), i ≤ j → j < i + ids.length →
      j ∈ (batchLoop db ids i).processed ∨ ∃ m, (j, m) ∈ (batchLoop db ids i).outcome := by
  induction ids with
  | nil =>
    intro db i j h1 h2
    simp only [List.length_nil, Nat.add_zero] at h2
    omega
  | cons s rest ih =>
    intro db i j h1 h2
    simp only [List.length_cons] at h2
    by_cases hji : j = i
    · subst hji
      rcases hps : parseID s with msg | id
      · rw [batchLoop_cons_parseError db s rest j msg hps]
        exact Or.inr ⟨msg, List.mem_cons_self _ _⟩
      · rcases hd : TodoModel.delete db id with ⟨db1, oe⟩
        cases oe with
        | some e =>
          rw [batchLoop_cons_deleteError db s rest j id db1 e hps hd]
          exact Or.inr ⟨e.message, List.mem_cons_self _ _⟩
        | none =>
          rw [batchLoop_cons_ok db s rest j id db1 hps hd]
          exact Or.inl (List.mem_cons_self _ _)
    · have h1' : i + 1 ≤ j := by omega
      have h2' : j < (i + 1) + rest.length := by omega
      rcases hps : parseID s with msg | id
      · rw [batchLoop_cons_parseError db s rest i msg hps]
        rcases ih db (i + 1) j h1' h2' with hp | ⟨m, hm⟩
        · exact Or.inl hp
        · exact Or.inr ⟨m, List.mem_cons_of_mem _ hm⟩
      · rcases hd : TodoModel.delete db id with ⟨db1, oe⟩
        cases oe with
        | some e =>
          rw [batchLoop_cons_deleteError db s rest i id db1 e hps hd]
          rcases ih db1 (i + 1) j h1' h2' with hp | ⟨m, hm⟩
          · exact Or.inl hp
          · exact Or.inr ⟨m, List.mem_cons_of_mem _ hm⟩
        | none =>
          rw [batchLoop_cons_ok db s rest i id db1 hps hd]
          rcases ih db1 (i + 1) j h1' h2' with hp | ⟨m, hm⟩
          · exact Or.inl (List.mem_cons_of_mem _ hp)
          · exact Or.inr ⟨m, hm⟩

theorem batchLoop_exclusive (ids : List String) :
    ∀ (db : TodoDB) (i j : Nat) (m : String),
      j ∈ (batchLoop db ids i).processed → (j, m) ∉ (batchLoop db ids i).outcome := by
  induction ids with
  | nil =>
    intro db i j m h
    simp [batchLoop] at h
  | cons s rest ih =>
    intro db i j m hp hm
    rcases hps : parseID s with msg | id
    · rw [batchLoop_cons_parseError db s rest i msg hps] at hp hm
      have hrange := (batchLoop_mem_range rest db (i + 1) j).1 hp
      rcases List.mem_cons.mp hm with heq | hmem
      · have hj : j = i := congrArg Prod.fst heq
        omega
      · exact ih db (i + 1) j m hp hmem
    · rcases hd : TodoModel.delete db id with ⟨db1, oe⟩
      cases oe with
      | some e =>
        rw [batchLoop_cons_deleteError db s rest i id db1 e hps hd] at hp hm
        have hrange := (batchLoop_mem_range rest db1 (i + 1) j).1 hp
        rcases List.mem_cons.mp hm with heq | hmem
        · have hj : j = i := congrArg Prod.fst heq
          omega
        · exact ih db1 (i + 1) j m hp hmem
      | none =>
        rw [batchLoop_cons_ok db s rest i id db1 hps hd] at hp hm
        rcases List.mem_cons.mp hp with heq | hpm
        · subst heq
          have := (batchLoop_mem_range rest db1 (j + 1) j).2 m hm
          omega
        · exact ih db1 (i + 1) j m hpm hm

theorem batchLoop_outcome_msgs (ids : List String) :
    ∀ (db : TodoDB) (i j : Nat) (m : String),
      (j, m) ∈ (batchLoop db ids i).outcome → m = "invalid ID" ∨ m = "not found" := by
  induction ids with
  | nil =>
    intro db i j m h
    simp [batchLoop] at h
  | cons s rest ih =>
    intro db i j m h
    rcases hps : parseID s with msg | id
    · rw [batchLoop_cons_parseError db s rest i msg hps] at h
      rcases List.mem_cons.mp h with heq | hmem
      · have hm : m = msg := congrArg Prod.snd heq
        subst hm
        exact Or.inl (parseID_error_msg s m hps)
      · exact ih db (i + 1) j m hmem
    · rcases hd : TodoModel.delete db id with ⟨db1, oe⟩
      cases oe with
      | some e =>
        rw [batchLoop_cons_deleteError db s rest i id db1 e hps hd] at h
        rcases List.mem_cons.mp h with heq | hmem
        · have hm : m = e.message := congrArg Prod.snd heq
          obtain ⟨he, _⟩ := delete_error_elim db id db1 e hd
          subst he
          exact Or.inr hm
        · exact ih db1 (i + 1) j m hmem
      | none =>
        rw [batchLoop_cons_ok db s rest i id db1 hps hd] at h
        exact ih db1 (i + 1) j m h

theorem batchLoop_parse_error_mem (ids : List String) :
    ∀ (db : TodoDB) (i k : Nat) (hk : k < ids.length) (m : String),
      parseID (ids.get ⟨k, hk⟩) = .error m → (i + k, m) ∈ (batchLoop db ids i).outcome := by
  induction ids with
  | nil =>
    intro db i k hk
    simp at hk
  | cons s rest ih =>
    intro db i k hk m hperr
    cases k with
    | zero =>
      have hs : parseID s = .error m := hperr
      rw [batchLoop_cons_parseError db s rest i m hs]
      simp
    | succ k' =>
      have hk' : k' < rest.length := by
        simpa using hk
      have hget : (s :: rest).get ⟨k' + 1, hk⟩ = rest.get ⟨k', hk'⟩ := rfl
      rw [hget] at hperr
      have hidx : i + (k' + 1) = (i + 1) + k' := by omega
      rcases hps : parseID s with msg0 | id
      · rw [batchLoop_cons_parseError db s rest i msg0 hps]
        have := ih db (i + 1) k' hk' m hperr
        rw [hidx]
        exact List.mem_cons_of_mem _ this
      · rcases hd : TodoModel.delete db id with ⟨db1, oe⟩
        cases oe with
        | some e =>
          rw [batchLoop_cons_deleteError db s rest i id db1 e hps hd]
          have := ih db1 (i + 1) k' hk' m hperr
          rw [hidx]
          exact List.mem_cons_of_mem _ this
        | none =>
          rw [batchLoop_cons_ok db s rest i id db1 hps hd]
          have := ih db1 (i + 1) k' hk' m hperr
          rw [hidx]
          exact this

theorem batchLoop_success_iff (ids : List String) :
    ∀ (db : TodoDB) (i : Nat),
      ((batchLoop db ids i).success = true ↔ (batchLoop db ids i).outcome = []) := by
  induction ids with
  | nil =>
    intro db i
    simp [batchLoop]
  | cons s rest ih =>
    intro db i
    rcases hps : parseID s with msg | id
    · rw [batchLoop_cons_parseError db s rest i msg hps]
      simp
    · rcases hd : TodoModel.delete db id with ⟨db1, oe⟩
      cases oe with
      | some e =>
        rw [batchLoop_cons_deleteError db s rest i id db1 e hps hd]
        simp
      | none =>
        rw [batchLoop_cons_ok db s rest i id db1 hps hd]
        exact ih db1 (i + 1)

/-- C6: for a non-empty id list, the batch-delete response lists every
submitted index exactly once — as processed on success, or in the outcome map
with a reason; every reason is either "invalid ID" or "not found", a
non-parsing id is reported as "invalid ID" at its index, and the HTTP status
is 200 exactly when no item failed (400 otherwise). -/
theorem deleteTodosBatch_per_item (db : TodoDB) (ids : List String) (hne : ids ≠ []) :
    ∃ db' status success processed outcome,
      deleteTodosBatch db ids = (db', .result status success processed outcome)
      ∧ (∀ j, j < ids.length → j ∈ processed ∨ ∃ m, (j, m) ∈ outcome)
      ∧ (∀ j, j ∈ processed → ∀ m, (j, m) ∉ outcome)
      ∧ (∀ j m, (j, m) ∈ outcome → m = "invalid ID" ∨ m = "not found")
      ∧ (∀ k (hk : k < ids.length) m, parseID (ids.get ⟨k, hk⟩) = .error m → (k, m) ∈ outcome)
      ∧ ((status = 200) ↔ outcome = [])
      ∧ ((success = true) ↔ outcome = []) := by
  have hemp : ids.isEmpty = false := by
    cases ids with
    | nil => cases hne rfl
    | cons a l => rfl
  refine ⟨(batchLoop db ids 0).db,
    (if (batchLoop db ids 0).success then 200 else 400),
    (batchLoop db ids 0).success,
    (batchLoop db ids 0).processed,
    (batchLoop db ids 0).outcome, ?_, ?_, ?_, ?_, ?_, ?_, ?_⟩
  · simp [deleteTodosBatch, hemp]
  · intro j hj
    exact batchLoop_coverage ids db 0 j (Nat.zero_le j) (by omega)
  · intro j hp m
    exact batchLoop_exclusive ids db 0 j m hp
  · intro j m hm
    exact batchLoop_outcome_msgs ids db 0 j m hm
  · intro k hk m hperr
    have := batchLoop_parse_error_mem ids db 0 k hk m hperr
    simpa using this
  · by_cases hs : (batchLoop db ids 0).success = true
    · simp only [hs, if_true]
      exact ⟨fun _ => (batchLoop_success_iff ids db 0).mp hs, fun _ => trivial⟩
    · have hs' : (batchLoop db ids 0).success = false := by
        cases hb : (batchLoop db ids 0).success
        · rfl
        · exact absurd hb hs
      simp only [hs', Bool.false_eq_true, if_false]
      constructor
      · intro h400
        exact absurd h400 (by decide)
      · intro hout
        exact absurd ((batchLoop_success_iff ids db 0).mpr hout) hs
  · exact batchLoop_success_iff ids db 0

def batchTodo : Todo :=
  { id := 1, userId := 1, text := "batch target", contexts := [], projects := [],
    priority := "", completed := false, archived := false, version := 1 }

theorem deleteTodosBatch_per_item_witness :
    ∃ db' status success processed outcome,
      deleteTodosBatch [batchTodo] ["1", "bad", "999"]
          = (db', .result status success processed outcome)
      ∧ (∀ j, j < (["1", "bad", "999"] : List String).length →
          j ∈ processed ∨ ∃ m, (j, m) ∈ outcome)
      ∧ (∀ j, j ∈ processed → ∀ m, (j, m) ∉ outcome)
      ∧ (∀ j m, (j, m) ∈ outcome → m = "invalid ID" ∨ m = "not found")
      ∧ (∀ k (hk : k < (["1", "bad", "999"] : List String).length) m,
          parseID ((["1", "bad", "999"] : List String).get ⟨k, hk⟩) = .error m →
            (k, m) ∈ outcome)
      ∧ ((status = 200) ↔ outcome = [])
      ∧ ((success = true) ↔ outcome = []) :=
  deleteTodosBatch_per_item [batchTodo] ["1", "bad", "999"] (by decide)

/-- User record (the data-package User struct is not among the sources; fields
follow the spec: id, email, activation flag, optimistic-concurrency version;
name, password digest and creation timestamp play no role in any verified
property and are omitted). -/
structure User where
  id : Int
  email : String
  activated : Bool
  version : Int
deriving Repr, DecidableEq

/-- Token scopes (activation and authentication). -/
inductive TokenScope
  | activation
  | authentication
deriving Repr, DecidableEq

/-- Stored token row: digest, owning user id, scope, expiry time. -/
structure Token where
  hash : String
  userID : Int
  scope : TokenScope
  expiry : Int
deriving Repr, DecidableEq

/-- The users, tokens and permissions tables. -/
structure AppState where
  users : List User
  tokens : List Token
  permissions : List (Int × String)
deriving Repr, DecidableEq

/-- Modelled from the spec: the token digest (SHA-256 of the plaintext in the
implementation), a deterministic non-reversible function; collisions between
distinct plaintexts are assumed impossible, so it is represented by an
injective tagging function. -/
def tokenHash (plaintext : String) : String := String.append "sha256:" plaintext

/-- Modelled from the spec: ValidateTokenPlaintext (the data-package
definition is not among the sources, only call sites). Plaintext tokens must
be present and exactly 26 bytes long; failures are field errors on "token". -/
def ValidateTokenPlaintext (v : Validator) (token : String) : Validator :=
  (v.check (token != "") "token" "must be provided").check
    (decide (token.length = 26)) "token" "must be 26 bytes long"

/-- Modelled from the spec: UserModel.GetForToken (internal/data/users.go is
not among the sources). Recomputes the digest from the plaintext, finds a
token row with matching digest and scope that has not expired (now < expiry),
and returns the associated user; no match, wrong scope and expiry are the
indistinguishable record-not-found. -/
def UserModel.getForToken (st : AppState) (scope : TokenScope) (plaintext : String)
    (now : Int) : Except ModelError User :=
  match st.tokens.find? (fun t =>
      t.hash == tokenHash plaintext && t.scope == scope && decide (now < t.expiry)) with
  | none => .error .recordNotFound
  | some tok =>
    match st.users.find? (fun u => u.id == tok.userID) with
    | none => .error .recordNotFound
    | some u => .ok u

/-- Modelled from the spec: UserModel.Update with optimistic concurrency — the
UPDATE statement matches id and version and bumps the version by one,
mirroring the todos update; no matching row is an edit conflict. -/
def UserModel.update (st : AppState) (u : User) : AppState × Except ModelError Unit :=
  match st.users.find? (fun x => x.id == u.id && x.version == u.version) with
  | none => (st, .error .editConflict)
  | some _ =>
    ({ st with users := st.users.map (fun x =>
        if x.id == u.id && x.version == u.version
        then { u with version := u.version + 1 } else x) },
      .ok ())

/-- Modelled from the spec: TokenModel.DeleteAllForUser removes every token of
the given scope belonging to the user. -/
def TokenModel.deleteAllForUser (st : AppState) (scope : TokenScope) (userID : Int) :
    AppState :=
  { st with tokens := st.tokens.filter (fun t => !(t.scope == scope && t.userID == userID)) }

/-- Modelled from the spec: PermissionModel.AddForUser grants a permission
code to a user. -/
def PermissionModel.addForUser (st : AppState) (userID : Int) (code : String) : AppState :=
  { st with permissions := st.permissions ++ [(userID, code)] }

/-- Responses of the activateUser handler. -/
inductive ActivateResult
  | accepted (user : User)
  | failedValidation (errors : List (String × String))
  | conflict
  | serverError
deriving Repr, DecidableEq

/-- activateUser (cmd/api/users_handlers.go lines 113-183): validate the
plaintext shape, resolve the user via GetForToken with scope activation (a
miss is a field error "invalid or expired token" on "token"), set
activated = true, persist with a version bump, delete all activation tokens
of the user, grant todos:write and answer 202 with the updated user. -/
def activateUser (st : AppState) (tokenPlaintext : String) (now : Int) :
    AppState × ActivateResult :=
  let v := ValidateTokenPlaintext Validator.new tokenPlaintext
  if !v.valid then (st, .failedValidation v.errors)
  else
    match UserModel.getForToken st .activation tokenPlaintext now with
    | .error .recordNotFound =>
      (st, .failedValidation (v.addError "token" "invalid or expired token").errors)
    | .error _ => (st, .serverError)
    | .ok user =>
      let activatedUser := { user with activated := true }
      match UserModel.update st activatedUser with
      | (st1, .ok _) =>
        let st2 := TokenModel.deleteAllForUser st1 .activation user.id
        let st3 := PermissionModel.addForUser st2 user.id "todos:write"
        (st3, .accepted { activatedUser with version := activatedUser.version + 1 })
      | (_, .error .editConflict) => (st, .conflict)
      | (_, .error _) => (st, .serverError)

/-- The state reached by a successful activation of user u: the user row is
activated with a version bump, the activation tokens of the user are gone and
todos:write has been granted. -/
def postActivationState (st : AppState) (u : User) : AppState :=
  { users := st.users.map (fun x =>
      if x.id == u.id && x.version == u.version
      then { u with activated := true, version := u.version + 1 } else x),
    tokens := st.tokens.filter (fun t =>
      !(t.scope == TokenScope.activation && t.userID == u.id)),
    permissions := st.permissions ++ [(u.id, "todos:write")] }

/-- C3: with a valid, unexpired activation token whose digest identifies only
tokens of user u, the first activation succeeds: the stored user is activated
(with a version bump), every activation token of the user is deleted, the
todos:write permission is granted, and the response is 202 with the updated
user; an immediate second attempt with the same plaintext fails with the
field-level error "invalid or expired token" on "token" and changes nothing. -/
theorem activation_redeems_once (st : AppState) (p : String) (now now2 : Int) (u : User)
    (huniq : uniqueKeys (fun x => x.id) st.users = true)
    (hval : (ValidateTokenPlaintext Validator.new p).valid = true)
    (hget : UserModel.getForToken st .activation p now = .ok u)
    (hhash : ∀ t ∈ st.tokens, t.hash = tokenHash p → t.scope = .activation ∧ t.userID = u.id) :
    ∃ st',
      activateUser st p now
          = (st', .accepted { u with activated := true, version := u.version + 1 })
      ∧ st'.users.find? (fun x => x.id == u.id)
          = some { u with activated := true, version := u.version + 1 }
      ∧ (∀ t ∈ st'.tokens, ¬(t.scope = .activation ∧ t.userID = u.id))
      ∧ (u.id, "todos:write") ∈ st'.permissions
      ∧ activateUser st' p now2
          = (st', .failedValidation [("token", "invalid or expired token")]) := by
  have hget0 := hget
  unfold UserModel.getForToken at hget0
  rcases hft : st.tokens.find? (fun t =>
      t.hash == tokenHash p && t.scope == TokenScope.activation && decide (now < t.expiry))
      with _ | tok
  · rw [hft] at hget0
    dsimp only at hget0
    cases hget0
  rw [hft] at hget0
  dsimp only at hget0
  rcases hfu : st.users.find? (fun x => x.id == tok.userID) with _ | u0
  · rw [hfu] at hget0
    dsimp only at hget0
    cases hget0
  rw [hfu] at hget0
  dsimp only at hget0
  injection hget0 with hu0
  subst hu0
  have hmemu : u0 ∈ st.users := List.mem_of_find?_eq_some hfu
  rcases hfr : st.users.find? (fun x => x.id == u0.id && x.version == u0.version) with _ | r
  · exfalso
    have hall := List.find?_eq_none.mp hfr
    exact (hall u0 hmemu) (by simp)
  have he : (ValidateTokenPlaintext Validator.new p).errors = [] := by
    have h2 := hval
    unfold Validator.valid at h2
    rwa [List.isEmpty_iff] at h2
  have hv0 : ValidateTokenPlaintext Validator.new p = ⟨[]⟩ := by
    have h3 : (⟨(ValidateTokenPlaintext Validator.new p).errors⟩ : Validator) = ⟨[]⟩ := by
      rw [he]
    exact h3
  refine ⟨postActivationState st u0, ?_, ?_, ?_, ?_, ?_⟩
  · unfold activateUser postActivationState
    simp only [hval, Bool.not_true, Bool.false_eq_true, if_false]
    rw [hget]
    unfold UserModel.update
    dsimp only
    rw [hfr]
    rfl
  · unfold postActivationState
    have hfu2 : st.users.find? (fun x => x.id == u0.id) = some u0 :=
      find?_of_mem_uniqueKeys (fun x => x.id) st.users u0 u0.id huniq hmemu rfl
    have hg : ∀ x : User,
        (if x.id == u0.id && x.version == u0.version
          then { u0 with activated := true, version := u0.version + 1 } else x).id = x.id := by
      intro x
      by_cases hc : (x.id == u0.id && x.version == u0.version) = true
      · have hx : x.id = u0.id := beq_iff_eq.mp ((Bool.and_eq_true _ _).mp hc).1
        have hx2 : x.version = u0.version := beq_iff_eq.mp ((Bool.and_eq_true _ _).mp hc).2
        simp [hc, hx, hx2]
      · simp [hc]
    have hmapped := find?_map_key_preserving (fun x => x.id) _ hg st.users u0.id u0 hfu2
    simpa using hmapped
  · unfold postActivationState
    intro t ht
    have hmem := (List.mem_filter.mp ht).1
    have hcond := (List.mem_filter.mp ht).2
    rintro ⟨hsc, hus⟩
    rw [hsc, hus] at hcond
    simp at hcond
  · unfold postActivationState
    simp
  · have hfind2 : (st.tokens.filter (fun t =>
        !(t.scope == TokenScope.activation && t.userID == u0.id))).find? (fun t =>
          t.hash == tokenHash p && t.scope == TokenScope.activation
            && decide (now2 < t.expiry)) = none := by
      rw [List.find?_eq_none]
      intro t ht
      have hmem := (List.mem_filter.mp ht).1
      have hcond := (List.mem_filter.mp ht).2
      intro hpred
      have hh : t.hash = tokenHash p :=
        beq_iff_eq.mp ((Bool.and_eq_true _ _).mp ((Bool.and_eq_true _ _).mp hpred).1).1
      obtain ⟨hsc, hui⟩ := hhash t hmem hh
      rw [hsc, hui] at hcond
      simp at hcond
    have hget2 : UserModel.getForToken (postActivationState st u0) .activation p now2
        = .error .recordNotFound := by
      unfold UserModel.getForToken postActivationState
      dsimp only
      rw [hfind2]
    unfold activateUser
    simp only [hval, Bool.not_true, Bool.false_eq_true, if_false]
    rw [hget2, hv0]
    rfl

def c3plaintext : String := "ABCDEFGHIJKLMNOPQRSTUVWXYZ"

def c3user : User := { id := 7, email := "ann@example.com", activated := false, version := 1 }

def c3state : AppState :=
  { users := [c3user],
    tokens := [{ hash := tokenHash c3plaintext, userID := 7, scope := .activation,
                 expiry := 100 }],
    permissions := [(7, "todos:read")] }

theorem activation_redeems_once_witness :
    ∃ st',
      activateUser c3state c3plaintext 0
          = (st', .accepted { c3user with activated := true, version := c3user.version + 1 })
      ∧ st'.users.find? (fun x => x.id == c3user.id)
          = some { c3user with activated := true, version := c3user.version + 1 }
      ∧ (∀ t ∈ st'.tokens, ¬(t.scope = .activation ∧ t.userID = c3user.id))
      ∧ (c3user.id, "todos:write") ∈ st'.permissions
      ∧ activateUser st' c3plaintext 5
          = (st', .failedValidation [("token", "invalid or expired token")]) :=
  activation_redeems_once c3state c3plaintext 0 5 c3user (by decide) (by decide)
    (by decide) (by decide)

/-- Splits a character list at every space, keeping empty segments. -/
def splitFieldsAux : List Char → List Char → List (List Char)
  | [], acc => [acc.reverse]
  | c :: rest, acc =>
    if c = ' ' then acc.reverse :: splitFieldsAux rest []
    else splitFieldsAux rest (c :: acc)

/-- strings.Split(s, " "): splits at every single space; the empty string
yields one empty field. -/
def splitOnSpace (s : String) : List String :=
  (splitFieldsAux s.data []).map (fun cs => String.mk cs)

/-- data.AnonymousUser: the anonymous sentinel user (a zero-valued User). -/
def AnonymousUser : User := { id := 0, email := "", activated := false, version := 0 }

/-- Outcome of the authenticate middleware: either the next handler runs with
a user attached to the request context, or a response is written directly. -/
inductive AuthOutcome
  | proceed (user : User)
  | invalidToken
  | authServerError
deriving Repr, DecidableEq

/-- authenticate (cmd/api/middleware.go lines 148-195). The second component
counts database lookups (calls of GetForToken). An empty header string models
an absent Authorization header, which is what Header.Get returns then. -/
def authenticate (st : AppState) (now : Int) (authorizationHeader : String) :
    AuthOutcome × Nat :=
  if authorizationHeader == "" then (.proceed AnonymousUser, 0)
  else
    match splitOnSpace authorizationHeader with
    | [scheme, token] =>
      if scheme != "Bearer" then (.invalidToken, 0)
      else
        let v := ValidateTokenPlaintext Validator.new token
        if !v.valid then (.invalidToken, 0)
        else
          match UserModel.getForToken st .authentication token now with
          | .error .recordNotFound => (.invalidToken, 1)
          | .error _ => (.authServerError, 1)
          | .ok user => (.proceed user, 1)
    | _ => (.invalidToken, 0)

theorem check_false_not_valid (v : Validator) (k m : String) :
    (v.check false k m).valid = false := by
  unfold Validator.check Validator.addError Validator.valid
  by_cases hk : v.hasKey k = true
  · simp only [Bool.false_eq_true, if_false, hk, if_true]
    unfold Validator.hasKey at hk
    rcases hv : v.errors with _ | ⟨a, l⟩
    · rw [hv] at hk
      simp at hk
    · simp [hv]
  · simp only [Bool.false_eq_true, if_false, hk]
    simp

theorem splitOnSpace_two_ne_empty (hdr a b : String) (h : splitOnSpace hdr = [a, b]) :
    hdr ≠ "" := by
  intro he
  subst he
  have hlen := congrArg List.length h
  simp [splitOnSpace, splitFieldsAux] at hlen

/-- C4: (1) an absent Authorization header proceeds as the anonymous user with
no database lookup; (2) a header that does not split into exactly the two
parts Bearer and a token is answered with the invalid-authentication-token
response, with no lookup; (3) a well-formed header whose token is not 26
bytes gets the same response, with no lookup; (4) a well-formed header whose
token lookup misses (not found or expired) gets the same response; (5) on a
successful lookup the resolved user is handed to the downstream handler. -/
theorem authenticate_semantics :
    (∀ (st : AppState) (now : Int), authenticate st now "" = (.proceed AnonymousUser, 0))
    ∧ (∀ (st : AppState) (now : Int) (hdr : String), hdr ≠ "" →
        (∀ tok, splitOnSpace hdr ≠ ["Bearer", tok]) →
        authenticate st now hdr = (.invalidToken, 0))
    ∧ (∀ (st : AppState) (now : Int) (hdr tok : String),
        splitOnSpace hdr = ["Bearer", tok] → tok.length ≠ 26 →
        authenticate st now hdr = (.invalidToken, 0))
    ∧ (∀ (st : AppState) (now : Int) (hdr tok : String),
        splitOnSpace hdr = ["Bearer", tok] →
        UserModel.getForToken st .authentication tok now = .error .recordNotFound →
        (authenticate st now hdr).1 = .invalidToken)
    ∧ (∀ (st : AppState) (now : Int) (hdr tok : String) (u : User),
        splitOnSpace hdr = ["Bearer", tok] → tok.length = 26 →
        UserModel.getForToken st .authentication tok now = .ok u →
        authenticate st now hdr = (.proceed u, 1)) := by
  refine ⟨?_, ?_, ?_, ?_, ?_⟩
  · intro st now
    rfl
  · intro st now hdr hne hnb
    have hne' : (hdr == "") = false := beq_eq_false_iff_ne.mpr hne
    unfold authenticate
    rw [hne']
    simp only [Bool.false_eq_true, if_false]
    rcases hs : splitOnSpace hdr with _ | ⟨a, _ | ⟨b, _ | ⟨c, rest⟩⟩⟩
    · rfl
    · rfl
    · have hab : a ≠ "Bearer" := by
        intro hab
        exact hnb b (by rw [hs, hab])
      have hab' : (a != "Bearer") = true := by
        simp [hab]
      dsimp only
      rw [hab']
      simp
    · rfl
  · intro st now hdr tok hs hlen
    have hne' : (hdr == "") = false :=
      beq_eq_false_iff_ne.mpr (splitOnSpace_two_ne_empty hdr "Bearer" tok hs)
    have hb2 : decide (tok.length = 26) = false := decide_eq_false hlen
    unfold authenticate
    rw [hne']
    simp only [Bool.false_eq_true, if_false]
    rw [hs]
    dsimp only
    simp only [bne_self_eq_false, Bool.false_eq_true, if_false]
    unfold ValidateTokenPlaintext
    rw [hb2]
    rw [check_false_not_valid]
    simp
  · intro st now hdr tok hs hmiss
    have hne' : (hdr == "") = false :=
      beq_eq_false_iff_ne.mpr (splitOnSpace_two_ne_empty hdr "Bearer" tok hs)
    unfold authenticate
    rw [hne']
    simp only [Bool.false_eq_true, if_false]
    rw [hs]
    dsimp only
    simp only [bne_self_eq_false, Bool.false_eq_true, if_false]
    by_cases hv : (!(ValidateTokenPlaintext Validator.new tok).valid) = true
    · rw [if_pos hv]
    · rw [if_neg hv]
      rw [hmiss]
  · intro st now hdr tok u hs hlen hok
    have hnetok : tok ≠ "" := by
      intro h
      subst h
      simp at hlen
    have hne' : (hdr == "") = false :=
      beq_eq_false_iff_ne.mpr (splitOnSpace_two_ne_empty hdr "Bearer" tok hs)
    have hb1 : (tok != "") = true := by
      simp [hnetok]
    have hb2 : decide (tok.length = 26) = true := decide_eq_true hlen
    unfold authenticate
    rw [hne']
    simp only [Bool.false_eq_true, if_false]
    rw [hs]
    dsimp only
    simp only [bne_self_eq_false, Bool.false_eq_true, if_false]
    unfold ValidateTokenPlaintext
    rw [hb1, hb2, check_true, check_true]
    simp only [Validator.valid, Validator.new, List.isEmpty_nil, Bool.not_true,
      Bool.false_eq_true, if_false]
    rw [hok]

def c4authUser : User := { id := 9, email := "bob@example.com", activated := true, version := 2 }

def c4plaintext : String := "ABCDEFGHIJKLMNOPQRSTUVWXYZ"

def c4state : AppState :=
  { users := [c4authUser],
    tokens := [{ hash := tokenHash c4plaintext, userID := 9, scope := .authentication,
                 expiry := 100 }],
    permissions := [] }

def c4emptyState : AppState := { users := [], tokens := [], permissions := [] }

theorem authenticate_semantics_witness :
    authenticate c4emptyState 0 "" = (.proceed AnonymousUser, 0)
    ∧ authenticate c4emptyState 0 "Basic abc" = (.invalidToken, 0)
    ∧ authenticate c4emptyState 0 "Bearer short" = (.invalidToken, 0)
    ∧ (authenticate c4emptyState 0 ("Bearer " ++ c4plaintext)).1 = .invalidToken
    ∧ authenticate c4state 0 ("Bearer " ++ c4plaintext) = (.proceed c4authUser, 1) :=
  ⟨authenticate_semantics.1 c4emptyState 0,
   authenticate_semantics.2.1 c4emptyState 0 "Basic abc" (by decide)
     (fun tok h => by
        have := congrArg (fun l => l.headD "") h
        simp [splitOnSpace, splitFieldsAux] at this),
   authenticate_semantics.2.2.1 c4emptyState 0 "Bearer short" "short" (by decide) (by decide),
   authenticate_semantics.2.2.2.1 c4emptyState 0 ("Bearer " ++ c4plaintext) c4plaintext
     (by decide) (by decide),
   authenticate_semantics.2.2.2.2 c4state 0 ("Bearer " ++ c4plaintext) c4plaintext c4authUser
     (by decide) (by decide) (by decide)⟩

/-- The request data the middleware chain inspects: method, the Origin and
Access-Control-Request-Method headers, and the Authorization header (empty
string for absent). -/
structure Request where
  method : String
  origin : String
  acrMethod : String
  authorization : String
deriving Repr, DecidableEq

/-- The response data the chain properties inspect: status code and whether
Connection close was set. -/
structure Response where
  status : Nat
  connectionClose : Bool
deriving Repr, DecidableEq

/-- Instrumentation threaded through a request: the remaining tokens of the
requesting client's rate-limit bucket, whether CORS headers were set, whether
the routed handler ran, and the metrics response counter. -/
structure RunState where
  rateTokens : Nat
  corsHeadersSet : Bool
  routedHandlerReached : Bool
  responsesRecorded : Nat
deriving Repr, DecidableEq

/-- A handler maps the request and instrumentation state to a new state and
either a response or a panic (the error case, carrying the panic message). -/
abbrev Handler := Request → RunState → RunState × Except String Response

/-- recoverPanic (cmd/api/middleware.go lines 28-40): a panic recovered from
the inner handler sets the Connection close header and produces a 500
server-error response. -/
def recoverPanicMW (next : Handler) : Handler := fun r s =>
  match next r s with
  | (s', .error _) => (s', .ok { status := 500, connectionClose := true })
  | (s', .ok resp) => (s', .ok resp)

/-- metrics (cmd/api/middleware.go lines 404-427): counts the response after
the inner handler returns; it installs no recover, so a panic propagates
without the counters being bumped. -/
def metricsMW (next : Handler) : Handler := fun r s =>
  match next r s with
  | (s', .error e) => (s', .error e)
  | (s', .ok resp) => ({ s' with responsesRecorded := s'.responsesRecorded + 1 }, .ok resp)

/-- Modelled from the spec: logRequest (referenced by routes in
unnamed/part_001 line 312; its definition is not among the sources). Like
contextualizeRequest in cmd/api/middleware.go it records request metadata and
passes request and response through unchanged, with no panic recovery. -/
def logRequestMW (next : Handler) : Handler := next

/-- isPreflight (cmd/api/middleware.go lines 286-290): OPTIONS method with
both an Origin and an Access-Control-Request-Method header. -/
def isPreflight (r : Request) : Bool :=
  r.method == "OPTIONS" && r.origin != "" && r.acrMethod != ""

/-- enableCORS (cmd/api/middleware.go lines 301-333): when the Origin header
is non-empty and matches a trusted origin the CORS headers are set, and a
preflight request is then answered 200 immediately; every other request
continues down the chain. -/
def enableCORSMW (trustedOrigins : List String) (next : Handler) : Handler := fun r s =>
  if r.origin != "" && trustedOrigins.contains r.origin then
    let s1 := { s with corsHeadersSet := true }
    if isPreflight r then (s1, .ok { status := 200, connectionClose := false })
    else next r s1
  else next r s

/-- rateLimit (cmd/api/middleware.go lines 50-136), reduced to the requesting
client's token bucket: when the limiter is enabled, a request finding no
token left is answered 429 and otherwise consumes one token and proceeds;
when disabled every request passes through untouched. -/
def rateLimitMW (enabled : Bool) (next : Handler) : Handler := fun r s =>
  if !enabled then next r s
  else if s.rateTokens == 0 then (s, .ok { status := 429, connectionClose := false })
  else next r { s with rateTokens := s.rateTokens - 1 }

/-- authenticate as a chain layer: the downstream handler receives the
resolved user through the request context; an invalid token is answered 401
and an unexpected failure 500. -/
def authenticateMW (st : AppState) (now : Int) (next : User → Handler) : Handler := fun r s =>
  match (authenticate st now r.authorization).1 with
  | .proceed u => next u r s
  | .invalidToken => (s, .ok { status := 401, connectionClose := false })
  | .authServerError => (s, .ok { status := 500, connectionClose := false })

inductive MiddlewareName
  | logRequest
  | metrics
  | recoverPanic
  | enableCORS
  | rateLimit
  | authenticate
deriving Repr, DecidableEq

/-- The outermost-first middleware order of the alice.New call in routes
(unnamed/part_001 line 312): alice.New(m1, ..., mn).Then(router) applies m1
outermost. -/
def routesMiddlewareOrder : List MiddlewareName :=
  [.logRequest, .metrics, .recoverPanic, .enableCORS, .rateLimit, .authenticate]

/-- The composed chain of routes (unnamed/part_001 lines 287-314), in the
order of routesMiddlewareOrder. -/
def appChain (trustedOrigins : List String) (limiterEnabled : Bool) (st : AppState)
    (now : Int) (routed : User → Handler) : Handler :=
  logRequestMW (metricsMW (recoverPanicMW (enableCORSMW trustedOrigins
    (rateLimitMW limiterEnabled (authenticateMW st now routed)))))

/-- C5 counterexample: the concrete chain of routes is not the order the
claim states (panic-recovery outermost, then metrics, CORS, rate limiting,
authentication): logRequest is outermost and metrics runs outside
panic-recovery. -/
theorem routes_chain_order_not_as_claimed :
    routesMiddlewareOrder
      ≠ [.recoverPanic, .metrics, .enableCORS, .rateLimit, .authenticate] := by
  decide

/-- C5 (amended): the chain applied to every inbound request is, outermost
first, logRequest, metrics, panic-recovery, CORS, rate limiting,
authentication; a panic in the routed handler (below the recoverPanic layer,
which is third from the outside, not outermost) is caught there, converted to
a 500 response, and forces connection closure. -/
theorem routes_chain_order_and_panic_recovery :
    routesMiddlewareOrder
      = [.logRequest, .metrics, .recoverPanic, .enableCORS, .rateLimit, .authenticate]
    ∧ (∀ (trusted : List String) (st : AppState) (now : Int) (routed : User → Handler)
        (r : Request) (s s' : RunState) (msg : String),
        r.origin = "" → r.authorization = "" → s.rateTokens ≠ 0 →
        routed AnonymousUser r { s with rateTokens := s.rateTokens - 1 } = (s', .error msg) →
        appChain trusted true st now routed r s
          = ({ s' with responsesRecorded := s'.responsesRecorded + 1 },
              .ok { status := 500, connectionClose := true })) := by
  refine ⟨rfl, ?_⟩
  intro trusted st now routed r s s' msg horig hauth htok hpanic
  unfold appChain logRequestMW metricsMW recoverPanicMW enableCORSMW rateLimitMW authenticateMW
  have hcors : (r.origin != "" && trusted.contains r.origin) = false := by
    rw [horig]
    simp
  rw [hcors]
  simp only [Bool.false_eq_true, if_false, Bool.not_true]
  have hz : (s.rateTokens == 0) = false := beq_eq_false_iff_ne.mpr htok
  rw [hz]
  simp only [Bool.false_eq_true, if_false]
  rw [hauth]
  have hanon : (authenticate st now "").1 = AuthOutcome.proceed AnonymousUser := rfl
  rw [hanon]
  dsimp only
  rw [hpanic]

/-- A routed handler that always panics: used to witness the panic-recovery
conversion. -/
def panickyHandler : User → Handler := fun _ _ s => (s, .error "boom")

def c5request : Request := { method := "GET", origin := "", acrMethod := "", authorization := "" }

def c5state : RunState :=
  { rateTokens := 4, corsHeadersSet := false, routedHandlerReached := false,
    responsesRecorded := 0 }

theorem routes_chain_order_and_panic_recovery_witness :
    routesMiddlewareOrder
      = [.logRequest, .metrics, .recoverPanic, .enableCORS, .rateLimit, .authenticate]
    ∧ appChain [] true c4emptyState 0 panickyHandler c5request c5state
        = ({ c5state with rateTokens := 3, responsesRecorded := 1 },
            .ok { status := 500, connectionClose := true }) :=
  ⟨routes_chain_order_and_panic_recovery.1,
   routes_chain_order_and_panic_recovery.2 [] c4emptyState 0 panickyHandler c5request
     c5state { c5state with rateTokens := 3 } "boom" rfl rfl (by decide) rfl⟩

/-- A routed handler that records that it was reached. -/
def probeHandler : User → Handler := fun _ _ s =>
  ({ s with routedHandlerReached := true }, .ok { status := 200, connectionClose := false })

def evilPreflight : Request :=
  { method := "OPTIONS", origin := "http://evil.example", acrMethod := "PUT",
    authorization := "" }

def c8state : RunState :=
  { rateTokens := 5, corsHeadersSet := false, routedHandlerReached := false,
    responsesRecorded := 0 }

/-- C8 counterexample: a preflight request whose Origin is not a trusted
origin is not short-circuited by enableCORS — it consumes a rate-limit token
and reaches the routed handler, contradicting the claim for every preflight
request. -/
theorem untrusted_preflight_not_short_circuited :
    (appChain [] true c4emptyState 0 probeHandler evilPreflight c8state).1
      = { rateTokens := 4, corsHeadersSet := false, routedHandlerReached := true,
          responsesRecorded := 1 } := by
  decide

/-- C8 (amended): a preflight request from a trusted origin short-circuits at
the CORS layer: it is answered 200 immediately after the CORS headers are
set, the rate-limit budget is untouched, authentication never runs (the
result is independent of the user/token state) and the routed handler is not
reached — only the metrics layer outside records the response. -/
theorem trusted_preflight_short_circuits (trusted : List String) (enabled : Bool)
    (st : AppState) (now : Int) (routed : User → Handler) (r : Request) (s : RunState)
    (horigin : trusted.contains r.origin = true) (hpre : isPreflight r = true) :
    appChain trusted enabled st now routed r s
      = ({ s with corsHeadersSet := true, responsesRecorded := s.responsesRecorded + 1 },
          .ok { status := 200, connectionClose := false }) := by
  have horig : (r.origin != "") = true := by
    have h1 := ((Bool.and_eq_true _ _).mp ((Bool.and_eq_true _ _).mp hpre).1).2
    exact h1
  unfold appChain logRequestMW metricsMW recoverPanicMW enableCORSMW
  rw [horig, horigin]
  simp only [Bool.and_self, if_true, hpre]

def okPreflight : Request :=
  { method := "OPTIONS", origin := "http://app.example", acrMethod := "PUT",
    authorization := "" }

theorem trusted_preflight_short_circuits_witness :
    appChain ["http://app.example"] true c4emptyState 0 probeHandler okPreflight c8state
      = ({ c8state with corsHeadersSet := true, responsesRecorded := 1 },
          .ok { status := 200, connectionClose := false }) :=
  trusted_preflight_short_circuits ["http://app.example"] true c4emptyState 0 probeHandler
    okPreflight c8state (by decide) (by decide)

/-- The generic 202 message of POST /v1/tokens/activation. -/
def activationTokenResponseMessage : String :=
  "an email will be sent to you containing activation instructions"

/-- Modelled from the spec: the createActivationToken handler, whose body is
not among the sources (only its route registration, unnamed/part_001 line
306, is). Per spec sections 4.6 and 6: look the user up by email; when found,
issue a new activation token (72h expiry, emailed out of band; the fresh
random plaintext is an input here); either way answer 202 with the same
generic message, revealing nothing about whether the email exists. -/
def createActivationToken (st : AppState) (email : String) (now : Int) (fresh : String) :
    AppState × (Nat × String) :=
  match st.users.find? (fun u => u.email == email) with
  | some u =>
    ({ st with tokens := st.tokens ++
        [{ hash := tokenHash fresh, userID := u.id, scope := .activation,
           expiry := now + 72 * 3600 }] },
      (202, activationTokenResponseMessage))
  | none => (st, (202, activationTokenResponseMessage))

/-- C9: the response of POST /v1/tokens/activation — status and body — is a
constant, so it is identical whether or not a user with the submitted email
exists; two arbitrary runs produce the same response. -/
theorem createActivationToken_uniform_response :
    (∀ (st : AppState) (email : String) (now : Int) (fresh : String),
      (createActivationToken st email now fresh).2 = (202, activationTokenResponseMessage))
    ∧ (∀ (st st2 : AppState) (email email2 : String) (now now2 : Int) (fresh fresh2 : String),
        (createActivationToken st email now fresh).2
          = (createActivationToken st2 email2 now2 fresh2).2) := by
  have hconst : ∀ (st : AppState) (email : String) (now : Int) (fresh : String),
      (createActivationToken st email now fresh).2 = (202, activationTokenResponseMessage) := by
    intro st email now fresh
    unfold createActivationToken
    cases st.users.find? (fun u => u.email == email) with
    | none => rfl
    | some u => rfl
  exact ⟨hconst, fun st st2 email email2 now now2 fresh fresh2 => by
    rw [hconst, hconst]⟩

/-- A query string: key and value pairs; url.Values.Get returns the first
value for the key, or the empty string. -/
def queryGet (qs : List (String × String)) (key : String) : String :=
  match qs.find? (fun p => p.1 == key) with
  | some p => p.2
  | none => ""

/-- readQueryString (unnamed/part_001 lines 155-161). -/
def readQueryString (qs : List (String × String)) (key defaultValue : String) : String :=
  let s := queryGet qs key
  if s == "" then defaultValue else s

/-- strconv.ParseBool: exactly these string forms parse. -/
def parseBool (s : String) : Option Bool :=
  if s == "1" || s == "t" || s == "T" || s == "true" || s == "TRUE" || s == "True" then
    some true
  else if s == "0" || s == "f" || s == "F" || s == "false" || s == "FALSE" || s == "False" then
    some false
  else none

/-- readQueryBool (unnamed/part_001 lines 198-212): empty value gives the
default; an unparsable value gives the default and a field error. -/
def readQueryBool (qs : List (String × String)) (key : String) (defaultValue : Bool)
    (v : Validator) : Bool × Validator :=
  let s := queryGet qs key
  if s == "" then (defaultValue, v)
  else
    match parseBool s with
    | some b => (b, v)
    | none => (defaultValue, v.addError key "must be a boolean value")

/-- readQueryInt (unnamed/part_001 lines 178-192): empty value gives the
default; an unparsable value gives the default and a field error. -/
def readQueryInt (qs : List (String × String)) (key : String) (defaultValue : Int)
    (v : Validator) : Int × Validator :=
  let s := queryGet qs key
  if s == "" then (defaultValue, v)
  else
    match parseIntString s with
    | some i => (i, v)
    | none => (defaultValue, v.addError key "must be an integer value")

/-- Filters (internal/data, second document of parser_test.go lines 123-139). -/
structure Filters where
  page : Int
  pageSize : Int
  sort : String
  sortSafelist : List String
  includeArchived : Bool
  onlyArchived : Bool
  done : Bool
  undone : Bool
deriving Repr, DecidableEq

/-- ValidateFilters (internal/data, second document of parser_test.go lines
174-196): page and page_size bounds, the sort safelist, and the mutual
exclusion of the archive and completion flag pairs, recorded under the key
"filters". The reflect.TypeOf checks on the Go bool fields hold universally
and are modelled as passing checks. -/
def ValidateFilters (v : Validator) (f : Filters) : Validator :=
  let v1 := v.check (decide (f.page ≥ 1)) "page" "must be at least 1"
  let v2 := v1.check (decide (f.page ≤ 10000000)) "page" "must be no more than least 10,000,000"
  let v3 := v2.check (decide (f.pageSize ≥ 1)) "page_size" "must be at least 1"
  let v4 := v3.check (decide (f.pageSize ≤ 100)) "page_size" "must be no more than 100"
  let v5 := v4.check (permittedValue f.sort f.sortSafelist) "sort" "invalid sorting key"
  let v6 :=
    if f.includeArchived && f.onlyArchived then
      v5.addError "filters" "include-archived and only-archived are mutually exclusive"
    else v5
  if f.done && f.undone then
    v6.addError "filters" "done and undone are mutually exclusive"
  else v6

/-- Outcome of the listTodos handler up to the decision point: either a
validation rejection or execution of the todos query with the collected text
filter and options. -/
inductive ListOutcome
  | failedValidation (errors : List (String × String))
  | processed (text : String) (filters : Filters)
deriving Repr, DecidableEq

/-- listTodos (cmd/api/todos_handlers.go lines 19-81), up to the point where
the request is either rejected with a field validation error or the todos
query runs with the collected filters. URL unescaping of the text parameter
is not modelled. Note that the handler checks only the validator populated by
the readQuery helpers and never calls ValidateFilters. -/
def listTodos (qs : List (String × String)) : ListOutcome :=
  let v0 := Validator.new
  let text := readQueryString qs "text" ""
  let pv := readQueryInt qs "page" 1 v0
  let sv := readQueryInt qs "page_size" 20 pv.2
  let sort := readQueryString qs "sort" "id"
  let iav := readQueryBool qs "include-archived" false sv.2
  let oav := readQueryBool qs "only-archived" false iav.2
  let dv := readQueryBool qs "done" false oav.2
  let uv := readQueryBool qs "undone" false dv.2
  if !uv.2.valid then .failedValidation uv.2.errors
  else .processed text
    { page := pv.1, pageSize := sv.1, sort := sort,
      sortSafelist := ["id", "text", "-id", "-text"],
      includeArchived := iav.1, onlyArchived := oav.1,
      done := dv.1, undone := uv.1 }

/-- C7: a GET /v1/todos request supplying both only-archived and
include-archived (or both done and undone) is not rejected: listTodos
processes it with both flags set, because the handler never invokes
ValidateFilters — the repository's own filter validator, which flags exactly
these combinations under the "filters" key (proved alongside). -/
theorem listTodos_processes_conflicting_filters :
    listTodos [("only-archived", "true"), ("include-archived", "true")]
      = .processed ""
          { page := 1, pageSize := 20, sort := "id",
            sortSafelist := ["id", "text", "-id", "-text"],
            includeArchived := true, onlyArchived := true, done := false, undone := false }
    ∧ listTodos [("done", "true"), ("undone", "true")]
      = .processed ""
          { page := 1, pageSize := 20, sort := "id",
            sortSafelist := ["id", "text", "-id", "-text"],
            includeArchived := false, onlyArchived := false, done := true, undone := true }
    ∧ (ValidateFilters Validator.new
          { page := 1, pageSize := 20, sort := "id",
            sortSafelist := ["id", "text", "-id", "-text"],
            includeArchived := true, onlyArchived := true, done := false,
            undone := false }).hasKey "filters" = true
    ∧ (ValidateFilters Validator.new
          { page := 1, pageSize := 20, sort := "id",
            sortSafelist := ["id", "text", "-id", "-text"],
            includeArchived := false, onlyArchived := false, done := true,
            undone := true }).hasKey "filters" = true := by
  refine ⟨?_, ?_, ?_, ?_⟩ <;> decide

end Godo
